import Mathlib

/-!
Verification of the real-time fan-out and thread-integrity core of the chat
server (src/server/routes.ts and the storage layer's getThreadTree).

The embedding models the storage collaborator as association lists keyed by
id, JavaScript string truthiness explicitly (null/undefined and the empty
string are falsy), and the WebSocket registry as an insertion-ordered
association list, mirroring the iteration order of a JS Map.
-/

namespace ChatCore

/-- JS truthiness of a nullable string field: null/undefined and the empty
string are falsy, every other string is truthy. -/
def truthy : Option String → Bool
  | none => false
  | some s => !(s == "")

/-- A row of the messages table (shared/schema.ts): sender, content, the two
nullable routing targets and the nullable parent pointer. -/
structure Msg where
  senderId : String
  content : String
  channelId : Option String
  directMessageId : Option String
  parentMessageId : Option String
deriving DecidableEq

/-- The messages table, keyed by message id (insertion order preserved). -/
abbrev MsgStore := List (String × Msg)

/-- storage.getMessage: select the row with the given id. -/
def getMessage (store : MsgStore) (id : String) : Option Msg :=
  (store.find? (fun e => e.1 == id)).map Prod.snd

/-- The parent pointer as the walks see it: `parent.parentMessageId ?? null`
followed by the `while (currentId)` / `!row.parentId` truthiness test, so an
empty-string parent id behaves like null. -/
def parentRef (m : Msg) : Option String :=
  match m.parentMessageId with
  | none => none
  | some p => if p == "" then none else some p

/-- The parent-depth walk of POST /api/messages (routes.ts lines 276 to 287):
starting from the immediate parent, count hops upward, breaking on a visited
id, a missing row, a null parent pointer, or a count that reached 3. -/
def parentDepthAux (store : MsgStore) (cur : String) (visited : List String)
    (depth : Nat) : Nat :=
  if cur ∈ visited then depth
  else
    match getMessage store cur with
    | none => depth
    | some m =>
      match parentRef m with
      | none => depth + 1
      | some p =>
        if h : 3 ≤ depth + 1 then depth + 1
        else parentDepthAux store p (cur :: visited) (depth + 1)
termination_by 3 - depth
decreasing_by
  omega

/-- The parent depth computed for a candidate reply's parent id. -/
def parentDepth (store : MsgStore) (pid : String) : Nat :=
  parentDepthAux store pid [] 0

/-- The machine-readable rejection reasons of message-creation validation. -/
inductive Rejection where
  | ThreadTooDeep
  | ParentNotFound
  | AmbiguousRouting
  | MissingRouting
deriving DecidableEq

/-- Root-message routing validation (routes.ts lines 302 to 314): with no
parent, exactly one of channelId/directMessageId must be truthy; neither is
MissingRouting, both is AmbiguousRouting, otherwise the candidate is accepted
unchanged. -/
def validateRootRouting (cand : Msg) : Except Rejection Msg :=
  if !(truthy cand.channelId) && !(truthy cand.directMessageId) then
    Except.error Rejection.MissingRouting
  else if truthy cand.channelId && truthy cand.directMessageId then
    Except.error Rejection.AmbiguousRouting
  else Except.ok cand

/-- validateAndResolveRouting (routes.ts lines 272 to 314): with a truthy
parentMessageId, run the depth walk and reject ThreadTooDeep at depth 3,
resolve the immediate parent (ParentNotFound if absent) and force the
candidate's routing ids to the parent's; otherwise validate root routing. -/
def validateAndResolveRouting (store : MsgStore) (cand : Msg) :
    Except Rejection Msg :=
  match cand.parentMessageId with
  | some pid =>
    if pid == "" then validateRootRouting cand
    else if 3 ≤ parentDepth store pid then Except.error Rejection.ThreadTooDeep
    else
      match getMessage store pid with
      | none => Except.error Rejection.ParentNotFound
      | some parentMsg =>
        Except.ok { cand with
          channelId := parentMsg.channelId,
          directMessageId := parentMsg.directMessageId }
  | none => validateRootRouting cand

/-- Specification-level parent chain: `Chain store id r d` holds when walking
parent pointers upward from `id` visits `d` existing messages and ends at the
root `r`, whose parent pointer is null.  Every ancestor exists in storage by
construction. -/
inductive Chain (store : MsgStore) : String → String → Nat → Prop where
  | root (id : String) (m : Msg) :
      getMessage store id = some m → parentRef m = none → Chain store id id 1
  | step (id p r : String) (m : Msg) (d : Nat) :
      getMessage store id = some m → parentRef m = some p →
      Chain store p r d → Chain store id r (d + 1)

/-- Parent pointers are deterministic, so a chain's root and depth are
uniquely determined by its starting id. -/
theorem chain_unique {store : MsgStore} {id r₁ r₂ : String} {d₁ d₂ : Nat}
    (h₁ : Chain store id r₁ d₁) (h₂ : Chain store id r₂ d₂) :
    r₁ = r₂ ∧ d₁ = d₂ := by
  induction h₁ generalizing r₂ d₂ with
  | root id m hm hp =>
    cases h₂ with
    | root _ m₂ hm₂ hp₂ => exact ⟨rfl, rfl⟩
    | step _ p₂ _ m₂ d₂ hm₂ hp₂ hc₂ =>
      rw [hm] at hm₂
      cases hm₂
      rw [hp] at hp₂
      cases hp₂
  | step id p r m d hm hp hc ih =>
    cases h₂ with
    | root _ m₂ hm₂ hp₂ =>
      rw [hm] at hm₂
      cases hm₂
      rw [hp] at hp₂
      cases hp₂
    | step _ p₂ _ m₂ d₂ hm₂ hp₂ hc₂ =>
      rw [hm] at hm₂
      cases hm₂
      rw [hp] at hp₂
      cases hp₂
      obtain ⟨hr, hd⟩ := ih hc₂
      exact ⟨hr, by omega⟩

/-- A chain ending at `r` yields the trivial chain at `r` itself. -/
theorem chain_root {store : MsgStore} {id r : String} {d : Nat}
    (h : Chain store id r d) : Chain store r r 1 := by
  induction h with
  | root id m hm hp => exact Chain.root id m hm hp
  | step id p r m d hm hp hc ih => exact ih

/-- The depth walk computes `min (depth + d) 3` on a chain of depth `d`,
provided the accumulated depth is at most 2 and nothing on the chain has been
visited (visited ids all lie strictly deeper than the current node). -/
theorem parentDepthAux_chain (store : MsgStore) (d : Nat) (cur r : String)
    (visited : List String) (depth : Nat)
    (hc : Chain store cur r d)
    (hv : ∀ x ∈ visited, ∃ rx dx, Chain store x rx dx ∧ d < dx)
    (hd : depth ≤ 2) :
    parentDepthAux store cur visited depth = min (depth + d) 3 := by
  induction hc generalizing visited depth with
  | root id m hm hp =>
    have hnv : id ∉ visited := by
      intro hin
      obtain ⟨rx, dx, hcx, hlt⟩ := hv id hin
      have := chain_unique (Chain.root id m hm hp) hcx
      omega
    rw [parentDepthAux]
    simp only [if_neg hnv, hm, hp]
    omega
  | step id p r m d hm hp hc ih =>
    have hnv : id ∉ visited := by
      intro hin
      obtain ⟨rx, dx, hcx, hlt⟩ := hv id hin
      have := chain_unique (Chain.step id p r m d hm hp hc) hcx
      omega
    rw [parentDepthAux]
    simp only [if_neg hnv, hm, hp]
    by_cases h3 : 3 ≤ depth + 1
    · rw [dif_pos h3]
      omega
    · rw [dif_neg h3]
      have hrec := ih (id :: visited) (depth + 1)
        (by
          intro x hx
          rcases List.mem_cons.mp hx with hx | hx
          · exact ⟨r, d + 1, by rw [hx]; exact Chain.step _ p r m d hm hp hc,
              by omega⟩
          · obtain ⟨rx, dx, hcx, hlt⟩ := hv x hx
            exact ⟨rx, dx, hcx, by omega⟩)
        (by omega)
      rw [hrec]
      omega

/-- A chain of depth `d` starting at `pid` gives parent depth `min d 3`. -/
theorem parentDepth_chain {store : MsgStore} {pid r : String} {d : Nat}
    (h : Chain store pid r d) : parentDepth store pid = min d 3 := by
  have := parentDepthAux_chain store d pid r [] 0 h
    (by intro x hx; cases hx) (by omega)
  simpa [parentDepth] using this

/-- A chain starting at `pid` witnesses that `pid` exists in storage. -/
theorem chain_head_exists {store : MsgStore} {pid r : String} {d : Nat}
    (h : Chain store pid r d) : ∃ m, getMessage store pid = some m := by
  cases h with
  | root _ m hm _ => exact ⟨m, hm⟩
  | step _ p _ m d hm _ _ => exact ⟨m, hm⟩

/-- Claim C1: for a candidate whose parentMessageId is present, validation
rejects with ThreadTooDeep exactly when the parent's chain already has depth
3 (all ancestors existing in storage), and a parent at depth 1 or 2 passes
the depth check, so the creation resolves successfully. -/
theorem c1_thread_depth_limit (store : MsgStore) (cand : Msg) (pid r : String)
    (d : Nat) (hp : cand.parentMessageId = some pid)
    (hne : (pid == "") = false) (hd : Chain store pid r d) :
    ((validateAndResolveRouting store cand
        = Except.error Rejection.ThreadTooDeep) ↔ 3 ≤ d)
    ∧ (d < 3 → ∃ m, getMessage store pid = some m ∧
        validateAndResolveRouting store cand = Except.ok { cand with
          channelId := m.channelId, directMessageId := m.directMessageId }) := by
  obtain ⟨m, hm⟩ := chain_head_exists hd
  have hdep : parentDepth store pid = min d 3 := parentDepth_chain hd
  by_cases h3 : 3 ≤ d
  · have hmin : 3 ≤ parentDepth store pid := by omega
    have hres : validateAndResolveRouting store cand
        = Except.error Rejection.ThreadTooDeep := by
      simp [validateAndResolveRouting, hp, hne, hmin]
    exact ⟨⟨fun _ => h3, fun _ => hres⟩, fun hlt => absurd hlt (by omega)⟩
  · have hmin : ¬ 3 ≤ parentDepth store pid := by omega
    have hres : validateAndResolveRouting store cand = Except.ok { cand with
        channelId := m.channelId, directMessageId := m.directMessageId } := by
      simp [validateAndResolveRouting, hp, hne, hmin, hm]
    refine ⟨⟨fun habs => ?_, fun h => absurd h h3⟩, fun _ => ⟨m, hm, hres⟩⟩
    rw [hres] at habs
    simp at habs

/-- The three-level thread used as the concrete depth-limit scenario. -/
def c1RootMsg : Msg :=
  { senderId := "u1", content := "root", channelId := some "general",
    directMessageId := none, parentMessageId := none }

/-- Level-two reply of the concrete scenario. -/
def c1ReplyMsg : Msg :=
  { senderId := "u2", content := "reply", channelId := some "general",
    directMessageId := none, parentMessageId := some "a" }

/-- Level-three reply of the concrete scenario. -/
def c1ReplyReplyMsg : Msg :=
  { senderId := "u3", content := "reply of reply", channelId := some "general",
    directMessageId := none, parentMessageId := some "b" }

/-- Store holding the chain a (root) <- b <- c of depth 3. -/
def c1Store : MsgStore :=
  [("a", c1RootMsg), ("b", c1ReplyMsg), ("c", c1ReplyReplyMsg)]

/-- A fourth-level candidate replying to the depth-3 message c. -/
def c1Cand : Msg :=
  { senderId := "u4", content := "too deep", channelId := none,
    directMessageId := none, parentMessageId := some "c" }

/-- Witness for C1: creating a fourth-level reply under the depth-3 chain is
rejected with ThreadTooDeep. -/
theorem c1_thread_depth_limit_witness :
    validateAndResolveRouting c1Store c1Cand
      = Except.error Rejection.ThreadTooDeep := by
  have h1 : Chain c1Store "a" "a" 1 :=
    Chain.root "a" c1RootMsg (by decide) (by decide)
  have h2 : Chain c1Store "b" "a" 2 :=
    Chain.step "b" "a" "a" c1ReplyMsg 1 (by decide) (by decide) h1
  have h3 : Chain c1Store "c" "a" 3 :=
    Chain.step "c" "b" "a" c1ReplyReplyMsg 2 (by decide) (by decide) h2
  exact (c1_thread_depth_limit c1Store c1Cand "c" "a" 3 rfl (by decide)
    h3).1.mpr (by omega)

/-- Claim C2: once the depth check passes, a missing immediate parent is
rejected with ParentNotFound, and an existing parent forces the resolved
message's routing ids to exactly the parent's values, discarding whatever the
client supplied. -/
theorem c2_parent_resolution (store : MsgStore) (cand : Msg) (pid : String)
    (hp : cand.parentMessageId = some pid) (hne : (pid == "") = false)
    (hdepth : parentDepth store pid < 3) :
    (getMessage store pid = none →
       validateAndResolveRouting store cand
         = Except.error Rejection.ParentNotFound)
    ∧ (∀ m, getMessage store pid = some m →
        validateAndResolveRouting store cand = Except.ok { cand with
          channelId := m.channelId, directMessageId := m.directMessageId }) := by
  have hlt : ¬ 3 ≤ parentDepth store pid := by omega
  constructor
  · intro hmiss
    simp [validateAndResolveRouting, hp, hne, hlt, hmiss]
  · intro m hm
    simp [validateAndResolveRouting, hp, hne, hlt, hm]

/-- Parent message of the C2 inheritance scenario: routed to channel C1. -/
def c2ParentMsg : Msg :=
  { senderId := "u1", content := "root", channelId := some "C1",
    directMessageId := none, parentMessageId := none }

/-- Store holding only the C2 parent. -/
def c2Store : MsgStore := [("p", c2ParentMsg)]

/-- A reply candidate whose client-supplied routing contradicts the parent. -/
def c2Cand : Msg :=
  { senderId := "u2", content := "re", channelId := some "X",
    directMessageId := some "Y", parentMessageId := some "p" }

/-- Witness for C2: the resolved reply inherits channelId C1 and a null
directMessageId from the parent, regardless of what the client sent. -/
theorem c2_parent_resolution_witness :
    validateAndResolveRouting c2Store c2Cand = Except.ok { c2Cand with
      channelId := some "C1", directMessageId := none } := by
  have hch : Chain c2Store "p" "p" 1 :=
    Chain.root "p" c2ParentMsg (by decide) (by decide)
  have hdep : parentDepth c2Store "p" < 3 := by
    rw [parentDepth_chain hch]
    omega
  exact (c2_parent_resolution c2Store c2Cand "p" rfl (by decide) hdep).2
    c2ParentMsg (by decide)

/-- Claim C3: with no parentMessageId, both routing ids set is rejected as
AmbiguousRouting, neither set is rejected as MissingRouting, and exactly one
set is accepted with the routing unchanged. -/
theorem c3_root_routing (store : MsgStore) (cand : Msg)
    (hp : cand.parentMessageId = none) :
    (truthy cand.channelId = true → truthy cand.directMessageId = true →
       validateAndResolveRouting store cand
         = Except.error Rejection.AmbiguousRouting)
    ∧ (truthy cand.channelId = false → truthy cand.directMessageId = false →
       validateAndResolveRouting store cand
         = Except.error Rejection.MissingRouting)
    ∧ (truthy cand.channelId ≠ truthy cand.directMessageId →
       validateAndResolveRouting store cand = Except.ok cand) := by
  refine ⟨fun h1 h2 => ?_, fun h1 h2 => ?_, fun hxor => ?_⟩
  · simp [validateAndResolveRouting, hp, validateRootRouting, h1, h2]
  · simp [validateAndResolveRouting, hp, validateRootRouting, h1, h2]
  · cases hcb : truthy cand.channelId <;> cases hdb : truthy cand.directMessageId
    · rw [hcb, hdb] at hxor
      exact absurd rfl hxor
    · simp [validateAndResolveRouting, hp, validateRootRouting, hcb, hdb]
    · simp [validateAndResolveRouting, hp, validateRootRouting, hcb, hdb]
    · rw [hcb, hdb] at hxor
      exact absurd rfl hxor

/-- A valid root message: channelId set, directMessageId and parent null. -/
def c3Cand : Msg :=
  { senderId := "u1", content := "hello", channelId := some "general",
    directMessageId := none, parentMessageId := none }

/-- Witness for C3: a root message with exactly one routing target set is
accepted with the routing unchanged. -/
theorem c3_root_routing_witness :
    validateAndResolveRouting [] c3Cand = Except.ok c3Cand :=
  (c3_root_routing [] c3Cand rfl).2.2 (by decide)

/-- A registry entry (routes.ts line 564): the live socket handle (modelled
as a numeric id), the owning user id, and the subscribed channel ids. -/
structure Client where
  ws : Nat
  userId : String
  channels : List String
deriving DecidableEq

/-- The clients map, keyed by user id; list order is JS Map insertion order,
which is the iteration order of clients.values()/clients.entries(). -/
abbrev Registry := List (String × Client)

/-- A serialized WebSocket frame; data is the opaque JSON payload, and
channelId is present on room events and absent on direct-to-user events. -/
structure Frame where
  type : String
  data : String
  channelId : Option String
deriving DecidableEq

/-- JS Map.set: replace the value of an existing key in place, otherwise
append a new entry at the end. -/
def mapSet (clients : Registry) (k : String) (v : Client) : Registry :=
  match clients with
  | [] => [(k, v)]
  | e :: rest => if e.1 == k then (k, v) :: rest else e :: mapSet rest k v

/-- JS Map.get as an Option. -/
def mapGet (clients : Registry) (k : String) : Option Client :=
  (clients.find? (fun e => e.1 == k)).map Prod.snd

/-- The join-frame handler (routes.ts lines 574 to 581): clients.set replaces
this user's entry with the new socket and channel set unconditionally. -/
def register (clients : Registry) (userId : String) (ws : Nat)
    (channels : List String) : Registry :=
  mapSet clients userId { ws := ws, userId := userId, channels := channels }

/-- The registry's view of a user's live socket. -/
def liveSocketFor (clients : Registry) (userId : String) : Option Nat :=
  (mapGet clients userId).map Client.ws

/-- Whether a user's live entry subscribes to a channel. -/
def isSubscribed (clients : Registry) (userId channelId : String) : Bool :=
  match mapGet clients userId with
  | some c => c.channels.contains channelId
  | none => false

/-- The socket-close handler (routes.ts lines 595 to 603): scan the entries
in iteration order, delete the first one holding the closing socket, and
break; a close with no matching entry changes nothing. -/
def handleSocketClose (clients : Registry) (ws : Nat) : Registry :=
  match clients with
  | [] => []
  | e :: rest =>
    if e.2.ws == ws then rest else e :: handleSocketClose rest ws

/-- broadcastToChannel (routes.ts lines 606 to 622): return early on a null
or empty room id; otherwise send one serialized frame to every client whose
subscription list contains the room id and whose socket is open.  The result
lists each performed send as (socket id, frame). -/
def broadcastToChannel (clients : Registry) (openSockets : List Nat)
    (channelId : Option String) (eventType : String) (payload : String) :
    List (Nat × Frame) :=
  match channelId with
  | none => []
  | some cid =>
    if cid == "" then []
    else
      clients.filterMap (fun e =>
        if e.2.channels.contains cid && openSockets.contains e.2.ws then
          some (e.2.ws, { type := eventType, data := payload,
                          channelId := some cid })
        else none)

/-- broadcastToUser (routes.ts lines 634 to 639): a single send to the
user's live socket, if it exists and is open; otherwise the event drops. -/
def broadcastToUser (clients : Registry) (openSockets : List Nat)
    (userId : String) (eventType : String) (payload : String) :
    List (Nat × Frame) :=
  match mapGet clients userId with
  | some c =>
    if openSockets.contains c.ws then
      [(c.ws, { type := eventType, data := payload, channelId := none })]
    else []
  | none => []

/-- The states of the clients map reachable over a server process lifetime:
empty at startup, then join-frame registrations and socket closes. -/
inductive Reachable : Registry → Prop where
  | empty : Reachable []
  | join (r : Registry) (u : String) (ws : Nat) (cs : List String) :
      Reachable r → Reachable (register r u ws cs)
  | close (r : Registry) (ws : Nat) :
      Reachable r → Reachable (handleSocketClose r ws)

/-- mapSet leaves the key list unchanged when the key is present, and
appends the key otherwise. -/
theorem mapSet_keys (clients : Registry) (k : String) (v : Client) :
    (mapSet clients k v).map Prod.fst =
      if k ∈ clients.map Prod.fst then clients.map Prod.fst
      else clients.map Prod.fst ++ [k] := by
  induction clients with
  | nil => simp [mapSet]
  | cons e rest ih =>
    by_cases he : e.1 = k
    · subst he
      simp [mapSet]
    · have hbe : (e.1 == k) = false := by simp [he]
      have hke : k ≠ e.1 := fun h => he h.symm
      have hmem : k ∈ (e :: rest).map Prod.fst ↔ k ∈ rest.map Prod.fst := by
        simp [List.mem_cons, hke]
      by_cases hk : k ∈ rest.map Prod.fst
      · rw [if_pos (hmem.mpr hk)]
        simp only [mapSet, hbe, Bool.false_eq_true, if_false, List.map_cons,
          ih, if_pos hk]
      · rw [if_neg (fun h => hk (hmem.mp h))]
        simp only [mapSet, hbe, Bool.false_eq_true, if_false, List.map_cons,
          ih, if_neg hk, List.cons_append]

/-- mapSet preserves distinctness of keys. -/
theorem mapSet_nodup (clients : Registry) (k : String) (v : Client)
    (h : (clients.map Prod.fst).Nodup) :
    ((mapSet clients k v).map Prod.fst).Nodup := by
  rw [mapSet_keys]
  by_cases hk : k ∈ clients.map Prod.fst
  · simpa [hk]
  · simp only [hk, if_false]
    refine List.Nodup.append h (List.nodup_singleton k) ?_
    intro a ha hb
    rw [List.mem_singleton] at hb
    subst hb
    exact hk ha

/-- handleSocketClose yields a sublist of the registry. -/
theorem handleSocketClose_sublist (clients : Registry) (ws : Nat) :
    (handleSocketClose clients ws).Sublist clients := by
  induction clients with
  | nil => simp [handleSocketClose]
  | cons e rest ih =>
    by_cases he : e.2.ws = ws
    · have hbe : (e.2.ws == ws) = true := by simp [he]
      simp only [handleSocketClose, hbe, if_true]
      exact List.sublist_cons_self e rest
    · have hbe : (e.2.ws == ws) = false := by simp [he]
      simp only [handleSocketClose, hbe, Bool.false_eq_true, if_false]
      exact ih.cons₂ e

/-- Looking up the key just set returns the new value. -/
theorem mapGet_mapSet (clients : Registry) (k : String) (v : Client) :
    mapGet (mapSet clients k v) k = some v := by
  induction clients with
  | nil => simp [mapSet, mapGet, List.find?]
  | cons e rest ih =>
    by_cases he : e.1 = k
    · subst he
      simp [mapSet, mapGet, List.find?]
    · have hbe : (e.1 == k) = false := by simp [he]
      simp only [mapSet, hbe, Bool.false_eq_true, if_false]
      simpa [mapGet, List.find?, hbe] using ih

/-- Claim C5: every reachable registry state has at most one entry per user
id, and a second register for the same user fully replaces the first: the
live socket is the new one and channels only from the old subscription set
are no longer subscribed. -/
theorem c5_register_replaces :
    (∀ r : Registry, Reachable r → (r.map Prod.fst).Nodup)
    ∧ (∀ (r : Registry) (u : String) (s₁ s₂ : Nat) (cs₁ cs₂ : List String),
        liveSocketFor (register (register r u s₁ cs₁) u s₂ cs₂) u = some s₂
        ∧ ∀ c, c ∈ cs₁ → c ∉ cs₂ →
            isSubscribed (register (register r u s₁ cs₁) u s₂ cs₂) u c
              = false) := by
  constructor
  · intro r hr
    induction hr with
    | empty => simp
    | join r u ws cs hr ih => exact mapSet_nodup r u _ ih
    | close r ws hr ih =>
      exact ((handleSocketClose_sublist r ws).map Prod.fst).nodup ih
  · intro r u s₁ s₂ cs₁ cs₂
    constructor
    · simp [liveSocketFor, register, mapGet_mapSet]
    · intro c hc₁ hc₂
      simp [isSubscribed, register, mapGet_mapSet, hc₂]

/-- Witness for C5: after registering user u on socket 1 with channel a and
re-registering on socket 2 with channel b, the live socket is 2 and the
subscription to a is gone. -/
theorem c5_register_replaces_witness :
    liveSocketFor (register (register [] "u" 1 ["a"]) "u" 2 ["b"]) "u"
        = some 2
    ∧ isSubscribed (register (register [] "u" 1 ["a"]) "u" 2 ["b"]) "u" "a"
        = false :=
  ⟨(c5_register_replaces.2 [] "u" 1 2 ["a"] ["b"]).1,
   (c5_register_replaces.2 [] "u" 1 2 ["a"] ["b"]).2 "a" (by decide)
     (by decide)⟩

/-- Claim C4: broadcastToRoom with a null or empty room id performs zero
sends (and, being total, does not throw); with a proper room id the sends
are exactly one frame (type, payload, channelId = room) to each connection
subscribed to the room whose socket is open, in registry order, and no send
goes to any other connection. -/
theorem c4_broadcast_room (clients : Registry) (openSockets : List Nat)
    (cid eventType payload : String) (hne : (cid == "") = false) :
    broadcastToChannel clients openSockets (some cid) eventType payload
      = (clients.filter (fun e =>
            e.2.channels.contains cid && openSockets.contains e.2.ws)).map
          (fun e => (e.2.ws, { type := eventType, data := payload,
                               channelId := some cid }))
    ∧ broadcastToChannel clients openSockets none eventType payload = []
    ∧ broadcastToChannel clients openSockets (some "") eventType payload
        = [] := by
  refine ⟨?_, rfl, by simp [broadcastToChannel]⟩
  simp only [broadcastToChannel, hne, Bool.false_eq_true, if_false]
  induction clients with
  | nil => simp
  | cons e rest ih =>
    by_cases hsend : (e.2.channels.contains cid
        && openSockets.contains e.2.ws) = true
    · rw [List.filterMap_cons_some (by rw [if_pos hsend]), List.filter_cons]
      rw [if_pos hsend, List.map_cons, ih]
    · rw [List.filterMap_cons_none (by rw [if_neg hsend]), List.filter_cons]
      rw [if_neg hsend, ih]

/-- The three-user scenario registry: A and B subscribed to general on open
sockets 1 and 2, C subscribed only to random on open socket 3. -/
def c4Registry : Registry :=
  [("A", { ws := 1, userId := "A", channels := ["general"] }),
   ("B", { ws := 2, userId := "B", channels := ["general"] }),
   ("C", { ws := 3, userId := "C", channels := ["random"] })]

/-- Witness for C4: broadcasting a message event to general reaches exactly
the sockets of A and B, once each, and C receives nothing. -/
theorem c4_broadcast_room_witness :
    broadcastToChannel c4Registry [1, 2, 3] (some "general") "message" "m1"
      = [(1, { type := "message", data := "m1", channelId := some "general" }),
         (2, { type := "message", data := "m1",
               channelId := some "general" })] :=
  ((c4_broadcast_room c4Registry [1, 2, 3] "general" "message" "m1"
    (by decide)).1).trans (by decide)

/-- Claim C10: the close handler removes exactly the first registry entry
whose socket equals the closing socket and leaves every other entry in
place; with no matching entry it changes nothing, and a second entry bound
to the same socket survives the close. -/
theorem c10_socket_close (ws : Nat) :
    (∀ (pre post : Registry) (e : String × Client),
       (∀ x ∈ pre, x.2.ws ≠ ws) → e.2.ws = ws →
       handleSocketClose (pre ++ e :: post) ws = pre ++ post)
    ∧ (∀ r : Registry, (∀ x ∈ r, x.2.ws ≠ ws) →
        handleSocketClose r ws = r) := by
  constructor
  · intro pre post e hpre he
    induction pre with
    | nil =>
      simp [handleSocketClose, he]
    | cons x rest ih =>
      have hx : x.2.ws ≠ ws := hpre x (by simp)
      have hbe : (x.2.ws == ws) = false := by simp [hx]
      simp only [List.cons_append, handleSocketClose, hbe,
        Bool.false_eq_true, if_false, List.cons.injEq, true_and]
      exact ih (fun y hy => hpre y (by simp [hy]))
  · intro r hr
    induction r with
    | nil => rfl
    | cons x rest ih =>
      have hx : x.2.ws ≠ ws := hr x (by simp)
      have hbe : (x.2.ws == ws) = false := by simp [hx]
      simp only [handleSocketClose, hbe, Bool.false_eq_true, if_false,
        List.cons.injEq, true_and]
      exact ih (fun y hy => hr y (by simp [hy]))

/-- A direct-message conversation row: the participant user ids. -/
structure DirectMessage where
  participants : List String
deriving DecidableEq

/-- A channel row, restricted to the fields the fanout reads: its id and its
type string (the schema allows "public" and "private"). -/
structure Channel where
  id : String
  type : String
deriving DecidableEq

/-- The opaque notification payload the fanout writes: the routing id of the
triggering message and the message id. -/
structure NotifData where
  channelId : Option String
  directMessageId : Option String
  messageId : String
deriving DecidableEq

/-- A notification row: recipient, type tag and payload. -/
structure Notification where
  userId : String
  type : String
  data : NotifData
deriving DecidableEq

/-- The storage collaborator state visible to message creation and fanout:
the messages table, the direct-message table, the channels table and the
channel-membership rows (channelId, userId). -/
structure Store where
  messages : MsgStore
  dms : List (String × DirectMessage)
  channels : List (String × Channel)
  channelMembers : List (String × String)
deriving DecidableEq

/-- storage.getDirectMessageById. -/
def getDirectMessageById (st : Store) (id : String) : Option DirectMessage :=
  (st.dms.find? (fun e => e.1 == id)).map Prod.snd

/-- storage.getChannel. -/
def getChannel (st : Store) (id : String) : Option Channel :=
  (st.channels.find? (fun e => e.1 == id)).map Prod.snd

/-- storage.getChannelMemberUserIds: the userIds of the membership rows of
the given channel, in table order. -/
def getChannelMemberUserIds (st : Store) (channelId : String) : List String :=
  (st.channelMembers.filter (fun r => r.1 == channelId)).map Prod.snd

/-- The notification record created for one recipient of a new message. -/
def mkMessageNotification (nd : NotifData) (rid : String) : Notification :=
  { userId := rid, type := "message.created", data := nd }

/-- The DM-recipient loop of the fanout (routes.ts lines 332 to 339): for
each recipient in order, persist a notification and emit a broadcastToUser
event; `nf rid = true` models storage.createNotification throwing for that
recipient, which aborts the loop.  Returns the notifications created before
any failure and whether a failure occurred. -/
def fanoutLoop (nf : String → Bool) (nd : NotifData) :
    List String → List Notification × Bool
  | [] => ([], false)
  | rid :: rest =>
    if nf rid then ([], true)
    else
      let r := fanoutLoop nf nd rest
      (mkMessageNotification nd rid :: r.1, r.2)

/-- The channel-member loop of the fanout (routes.ts lines 345 to 353):
identical to the DM loop except that the sender is skipped inside the
loop. -/
def fanoutChannelLoop (nf : String → Bool) (senderId : String)
    (nd : NotifData) : List String → List Notification × Bool
  | [] => ([], false)
  | rid :: rest =>
    if rid == senderId then fanoutChannelLoop nf senderId nd rest
    else if nf rid then ([], true)
    else
      let r := fanoutChannelLoop nf senderId nd rest
      (mkMessageNotification nd rid :: r.1, r.2)

/-- Notification fanout for a persisted message (routes.ts lines 327 to
358): a DM message notifies every participant except the sender; a channel
message notifies the channel members except the sender only when the channel
type is private; a missing DM or channel row, or a public channel, notifies
nobody.  Each returned notification stands for one persisted Notification
row and the one broadcastToUser call made with it. -/
def notificationFanout (st : Store) (nf : String → Bool)
    (senderId msgId : String) (message : Msg) :
    List Notification × Bool :=
  if truthy message.directMessageId then
    match message.directMessageId with
    | some dmId =>
      match getDirectMessageById st dmId with
      | some dm =>
        fanoutLoop nf
          { channelId := none, directMessageId := some dmId,
            messageId := msgId }
          (dm.participants.filter (fun p => !(p == senderId)))
      | none => ([], false)
    | none => ([], false)
  else if truthy message.channelId then
    match message.channelId with
    | some cid =>
      match getChannel st cid with
      | some ch =>
        if ch.type == "private" then
          fanoutChannelLoop nf senderId
            { channelId := some ch.id, directMessageId := none,
              messageId := msgId }
            (getChannelMemberUserIds st ch.id)
        else ([], false)
      | none => ([], false)
    | none => ([], false)
  else ([], false)

/-- With no failures the DM loop creates one notification per recipient in
order. -/
theorem fanoutLoop_noFail (nd : NotifData) (l : List String) :
    fanoutLoop (fun _ => false) nd l
      = (l.map (mkMessageNotification nd), false) := by
  induction l with
  | nil => rfl
  | cons rid rest ih => simp [fanoutLoop, ih]

/-- With no failures the channel loop creates one notification per
non-sender member in order. -/
theorem fanoutChannelLoop_noFail (senderId : String) (nd : NotifData)
    (l : List String) :
    fanoutChannelLoop (fun _ => false) senderId nd l
      = ((l.filter (fun rid => !(rid == senderId))).map
           (mkMessageNotification nd), false) := by
  induction l with
  | nil => rfl
  | cons rid rest ih =>
    by_cases h : rid == senderId
    · simp [fanoutChannelLoop, h, List.filter_cons, ih]
    · simp only [Bool.not_eq_true] at h
      simp [fanoutChannelLoop, h, List.filter_cons, ih]

/-- Filtering created notifications by recipient mirrors filtering the
recipient list. -/
theorem count_notifications (nd : NotifData) (l : List String) (u : String) :
    ((l.map (mkMessageNotification nd)).filter
        (fun n => n.userId == u)).length
      = (l.filter (fun x => x == u)).length := by
  induction l with
  | nil => rfl
  | cons rid rest ih =>
    by_cases h : rid = u
    · subst h
      simp [List.filter_cons, mkMessageNotification, ih]
    · have hbe : (rid == u) = false := by simp [h]
      simp [List.filter_cons, mkMessageNotification, hbe, ih]

/-- On a duplicate-free list, the entries equal to `u` number one if `u` is
present and zero otherwise. -/
theorem filter_beq_length_nodup (l : List String) (u : String)
    (h : l.Nodup) :
    (l.filter (fun x => x == u)).length = if u ∈ l then 1 else 0 := by
  induction l with
  | nil => simp
  | cons a rest ih =>
    obtain ⟨ha, hrest⟩ := List.nodup_cons.mp h
    rw [List.filter_cons]
    by_cases hau : a = u
    · subst hau
      have h0 : (rest.filter (fun x => x == a)).length = 0 := by
        rw [ih hrest, if_neg ha]
      simp [h0, List.mem_cons]
    · have hbe : (a == u) = false := by simp [hau]
      have hne : u ≠ a := fun hh => hau hh.symm
      simp only [hbe, Bool.false_eq_true, if_false]
      rw [ih hrest]
      simp [List.mem_cons, hne]

/-- For a duplicate-free recipient base list, the fanout of one notification
per non-sender recipient delivers exactly one notification to each recipient
other than the sender and none to anyone else. -/
theorem fanout_recipients_count (nd : NotifData) (l : List String)
    (senderId u : String) (h : l.Nodup) :
    (((l.filter (fun p => !(p == senderId))).map
        (mkMessageNotification nd)).filter
      (fun n => n.userId == u)).length
      = if u ∈ l ∧ u ≠ senderId then 1 else 0 := by
  rw [count_notifications,
    filter_beq_length_nodup _ _ (h.filter _)]
  by_cases hm : u ∈ l ∧ u ≠ senderId
  · rw [if_pos hm, if_pos (by simp [List.mem_filter, hm.1, hm.2])]
  · rw [if_neg hm, if_neg (by
      simp only [List.mem_filter, Bool.not_eq_true]
      intro hc
      refine hm ⟨hc.1, ?_⟩
      intro hequ
      rw [hequ] at hc
      simp at hc)]

/-- Claim C6: the fanout of a persisted message creates exactly one
notification record and one broadcastToUser event per recipient, where the
recipients are the DM participants except the sender for a DM message, the
channel members except the sender for a private channel, and nobody for a
public channel; the sender never receives one. -/
theorem c6_notification_fanout (st : Store) (senderId msgId : String)
    (message : Msg) (u : String) :
    (∀ dmId dm, message.directMessageId = some dmId →
       (dmId == "") = false → getDirectMessageById st dmId = some dm →
       dm.participants.Nodup →
       ((notificationFanout st (fun _ => false) senderId msgId
           message).1.filter (fun n => n.userId == u)).length
         = if u ∈ dm.participants ∧ u ≠ senderId then 1 else 0)
    ∧ (∀ cid ch, truthy message.directMessageId = false →
        message.channelId = some cid → (cid == "") = false →
        getChannel st cid = some ch → ch.type = "private" →
        (getChannelMemberUserIds st ch.id).Nodup →
        ((notificationFanout st (fun _ => false) senderId msgId
            message).1.filter (fun n => n.userId == u)).length
          = if u ∈ getChannelMemberUserIds st ch.id ∧ u ≠ senderId
            then 1 else 0)
    ∧ (∀ cid ch, truthy message.directMessageId = false →
        message.channelId = some cid → (cid == "") = false →
        getChannel st cid = some ch → ch.type = "public" →
        notificationFanout st (fun _ => false) senderId msgId message
          = ([], false)) := by
  refine ⟨fun dmId dm hdm hne hget hnd => ?_,
          fun cid ch hndm hch hne hget htype hnd => ?_,
          fun cid ch hndm hch hne hget htype => ?_⟩
  · have htr : truthy message.directMessageId = true := by
      simp [truthy, hdm, hne]
    rw [notificationFanout, if_pos htr, hdm]
    simp only [hget, fanoutLoop_noFail]
    exact fanout_recipients_count _ _ _ _ hnd
  · rw [notificationFanout, if_neg (by simp [hndm]),
      if_pos (by simp [truthy, hch, hne]), hch]
    simp only [hget, if_pos (by simp [htype] : (ch.type == "private") = true),
      fanoutChannelLoop_noFail]
    exact fanout_recipients_count _ _ _ _ hnd
  · rw [notificationFanout, if_neg (by simp [hndm]),
      if_pos (by simp [truthy, hch, hne]), hch]
    have hpriv : (ch.type == "private") = false := by simp [htype]
    simp [hget, hpriv]

/-- The private channel of the C6 scenario: members A, B, C. -/
def c6Store : Store :=
  { messages := [], dms := [],
    channels := [("g", { id := "g", type := "private" })],
    channelMembers := [("g", "A"), ("g", "B"), ("g", "C")] }

/-- The message B posts to the private channel g. -/
def c6Msg : Msg :=
  { senderId := "B", content := "hi", channelId := some "g",
    directMessageId := none, parentMessageId := none }

/-- Witness for C6: in a private channel with members A, B, C, a message by
B yields exactly one notification for A and none for B. -/
theorem c6_notification_fanout_witness :
    ((notificationFanout c6Store (fun _ => false) "B" "m1" c6Msg).1.filter
        (fun n => n.userId == "A")).length = 1
    ∧ ((notificationFanout c6Store (fun _ => false) "B" "m1" c6Msg).1.filter
        (fun n => n.userId == "B")).length = 0 := by
  constructor
  · exact ((c6_notification_fanout c6Store "B" "m1" c6Msg "A").2.1 "g"
      { id := "g", type := "private" } rfl rfl (by decide) (by decide) rfl
      (by decide)).trans (by decide)
  · exact ((c6_notification_fanout c6Store "B" "m1" c6Msg "B").2.1 "g"
      { id := "g", type := "private" } rfl rfl (by decide) (by decide) rfl
      (by decide)).trans (by decide)

/-- JS `a || b` on the two routing ids: the first operand when truthy,
otherwise the second (routes.ts line 324). -/
def orTruthy (a b : Option String) : Option String :=
  if truthy a then a else b

/-- storage.createMessage: append the new row and return it. -/
def createMessage (st : Store) (freshId : String) (resolved : Msg) :
    Store × (String × Msg) :=
  ({ st with messages := st.messages ++ [(freshId, resolved)] },
   (freshId, resolved))

/-- The POST /api/messages pipeline after parsing (routes.ts lines 272 to
360): validate and resolve routing, persist, broadcast the message event to
its room, then run notification fanout inside a try/catch whose handler only
logs.  The response is the persisted message; the fanout failure flag is
discarded at the call site, so the returned notifications are exactly those
created before any failure. -/
def handleCreateMessage (st : Store) (clients : Registry)
    (openSockets : List Nat) (nf : String → Bool) (freshId : String)
    (cand : Msg) :
    Except Rejection ((String × Msg) × Store × List (Nat × Frame)
      × List Notification) :=
  match validateAndResolveRouting st.messages cand with
  | Except.error r => Except.error r
  | Except.ok resolved =>
    let pr := createMessage st freshId resolved
    let sends := broadcastToChannel clients openSockets
      (orTruthy resolved.channelId resolved.directMessageId) "message"
      freshId
    let fanout := notificationFanout pr.1 nf resolved.senderId freshId
      resolved
    Except.ok (pr.2, pr.1, sends, fanout.1)

/-- Claim C7: for every failure pattern of the notification path, a
message-creation request that passed validation still returns the persisted
message successfully, with the message store exactly the input store plus
the new row — fanout errors are swallowed and never reach the response. -/
theorem c7_fanout_isolated (st : Store) (clients : Registry)
    (openSockets : List Nat) (nf : String → Bool) (freshId : String)
    (cand resolved : Msg)
    (h : validateAndResolveRouting st.messages cand = Except.ok resolved) :
    ∃ ns, handleCreateMessage st clients openSockets nf freshId cand
      = Except.ok ((freshId, resolved),
          { st with messages := st.messages ++ [(freshId, resolved)] },
          broadcastToChannel clients openSockets
            (orTruthy resolved.channelId resolved.directMessageId)
            "message" freshId,
          ns) := by
  refine ⟨(notificationFanout
    { st with messages := st.messages ++ [(freshId, resolved)] } nf
    resolved.senderId freshId resolved).1, ?_⟩
  rw [handleCreateMessage, h]
  rfl

/-- The store and candidate of the C7 scenario: a DM between A and B. -/
def c7Store : Store :=
  { messages := [], dms := [("dm1", { participants := ["A", "B"] })],
    channels := [], channelMembers := [] }

/-- The root DM message A sends. -/
def c7Cand : Msg :=
  { senderId := "A", content := "hi", channelId := none,
    directMessageId := some "dm1", parentMessageId := none }

/-- Witness for C7: even when every createNotification call throws, the
creation response is still the persisted message. -/
theorem c7_fanout_isolated_witness :
    ∃ ns, handleCreateMessage c7Store [] [] (fun _ => true) "m1" c7Cand
      = Except.ok (("m1", c7Cand),
          { c7Store with messages := [("m1", c7Cand)] },
          [], ns) :=
  c7_fanout_isolated c7Store [] [] (fun _ => true) "m1" c7Cand c7Cand rfl

/-- A user row, restricted to its id (the join in getThreadTree only needs
existence; the sender object is carried opaquely in the tree). -/
structure User where
  id : String
deriving DecidableEq

/-- The users table, keyed by user id. -/
abbrev Users := List (String × User)

/-- The users-side of the inner join: look up a sender row by id. -/
def getUser (users : Users) (uid : String) : Option User :=
  (users.find? (fun e => e.1 == uid)).map Prod.snd

/-- The number of store keys not yet visited: the measure that shrinks on
every step of the cycle-guarded root-resolution walk. -/
def unvisitedCount (store : MsgStore) (visited : List String) : Nat :=
  ((store.map Prod.fst).filter (fun k => decide (k ∉ visited))).length

/-- Marking a visited id never increases the unvisited-key count. -/
theorem filter_unvisited_le (l : List String) (cur : String)
    (visited : List String) :
    (l.filter (fun k => decide (k ∉ cur :: visited))).length
      ≤ (l.filter (fun k => decide (k ∉ visited))).length :=
  (List.monotone_filter_right l (fun x hx => by
    simp only [decide_eq_true_eq] at hx ⊢
    exact fun hh => hx (List.mem_cons_of_mem _ hh))).length_le

/-- Marking an unvisited store key strictly shrinks the unvisited-key
count. -/
theorem filter_unvisited_lt (l : List String) (cur : String)
    (visited : List String) (hmem : cur ∈ l) (hnv : cur ∉ visited) :
    (l.filter (fun k => decide (k ∉ cur :: visited))).length
      < (l.filter (fun k => decide (k ∉ visited))).length := by
  induction l with
  | nil => cases hmem
  | cons a rest ih =>
    rw [List.filter_cons, List.filter_cons]
    by_cases hac : a = cur
    · subst hac
      have hb1 : decide (a ∉ a :: visited) = false := by simp
      have hb2 : decide (a ∉ visited) = true := by simp [hnv]
      rw [hb1, hb2]
      simp only [Bool.false_eq_true, if_false, if_true, List.length_cons]
      exact Nat.lt_succ_of_le (filter_unvisited_le rest a visited)
    · have hmem2 : cur ∈ rest := by
        rcases List.mem_cons.mp hmem with hh | hh
        · exact absurd hh.symm hac
        · exact hh
      by_cases hav : a ∈ cur :: visited
      · have hb1 : decide (a ∉ cur :: visited) = false := by simp [hav]
        rw [hb1]
        simp only [Bool.false_eq_true, if_false]
        by_cases hav2 : a ∈ visited
        · have hb2 : decide (a ∉ visited) = false := by simp [hav2]
          rw [hb2]
          simp only [Bool.false_eq_true, if_false]
          exact ih hmem2
        · have hb2 : decide (a ∉ visited) = true := by simp [hav2]
          rw [hb2]
          simp only [if_true, List.length_cons]
          exact Nat.lt_succ_of_lt (ih hmem2)
      · have hav2 : a ∉ visited := fun hh => hav (List.mem_cons_of_mem _ hh)
        have hb1 : decide (a ∉ cur :: visited) = true := by simp [hav]
        have hb2 : decide (a ∉ visited) = true := by simp [hav2]
        rw [hb1, hb2]
        simp only [if_true, List.length_cons]
        exact Nat.succ_lt_succ (ih hmem2)

/-- A successful getMessage lookup shows the id is a store key. -/
theorem getMessage_mem_keys {store : MsgStore} {cur : String} {m : Msg}
    (h : getMessage store cur = some m) : cur ∈ store.map Prod.fst := by
  rw [getMessage] at h
  cases hfind : store.find? (fun e => e.1 == cur) with
  | none => rw [hfind] at h; cases h
  | some e =>
    have hmem := List.mem_of_find?_eq_some hfind
    have hp : e.1 = cur := by simpa using List.find?_some hfind
    rw [← hp]
    exact List.mem_map_of_mem Prod.fst hmem

/-- A successful getMessage lookup yields a store entry. -/
theorem getMessage_mem {store : MsgStore} {id : String} {m : Msg}
    (h : getMessage store id = some m) : (id, m) ∈ store := by
  rw [getMessage] at h
  cases hfind : store.find? (fun e => e.1 == id) with
  | none => rw [hfind] at h; cases h
  | some e =>
    rw [hfind] at h
    have hmem := List.mem_of_find?_eq_some hfind
    obtain ⟨e1, e2⟩ := e
    have hp : e1 = id := by simpa using List.find?_some hfind
    have hm2 : e2 = m := by simpa using h
    rw [← hp, ← hm2]
    exact hmem

/-- The root-resolution walk of getThreadTree (part_004 lines 342 to 350):
follow parent pointers upward, stopping on a visited id, a missing row, or a
null parent; the visited set makes the walk total even on cyclic data. -/
def resolveRootAux (store : MsgStore) (cur : String)
    (visited : List String) : String :=
  if hv : cur ∈ visited then cur
  else
    match hm : getMessage store cur with
    | none => cur
    | some m =>
      match parentRef m with
      | none => cur
      | some p => resolveRootAux store p (cur :: visited)
termination_by unvisitedCount store visited
decreasing_by
  simp only [unvisitedCount]
  exact filter_unvisited_lt _ _ _ (getMessage_mem_keys hm) hv

/-- Unfolding: the walk stops at an already-visited id. -/
theorem resolveRootAux_eq_visited {store : MsgStore} {cur : String}
    {visited : List String} (h : cur ∈ visited) :
    resolveRootAux store cur visited = cur := by
  rw [resolveRootAux]
  simp [h]

/-- Unfolding: the walk stops at an id with no stored row. -/
theorem resolveRootAux_eq_missing {store : MsgStore} {cur : String}
    {visited : List String} (hnv : cur ∉ visited)
    (hm : getMessage store cur = none) :
    resolveRootAux store cur visited = cur := by
  rw [resolveRootAux]
  simp only [dif_neg hnv]
  split
  · rfl
  · rename_i m heq
    rw [hm] at heq
    cases heq

/-- Unfolding: the walk stops at a message with a null parent pointer. -/
theorem resolveRootAux_eq_root {store : MsgStore} {cur : String}
    {visited : List String} {m : Msg} (hnv : cur ∉ visited)
    (hm : getMessage store cur = some m) (hp : parentRef m = none) :
    resolveRootAux store cur visited = cur := by
  rw [resolveRootAux]
  simp only [dif_neg hnv]
  split
  · rfl
  · rename_i m2 heq
    rw [hm] at heq
    injection heq with heq2
    subst heq2
    simp [hp]

/-- Unfolding: the walk follows an existing parent pointer. -/
theorem resolveRootAux_eq_step {store : MsgStore} {cur : String}
    {visited : List String} {m : Msg} {p : String} (hnv : cur ∉ visited)
    (hm : getMessage store cur = some m) (hp : parentRef m = some p) :
    resolveRootAux store cur visited
      = resolveRootAux store p (cur :: visited) := by
  rw [resolveRootAux]
  simp only [dif_neg hnv]
  split
  · rename_i heq
    rw [hm] at heq
    cases heq
  · rename_i m2 heq
    rw [hm] at heq
    injection heq with heq2
    subst heq2
    simp [hp]

/-- On a chain, the root-resolution walk reaches the chain's root, provided
everything already visited lies strictly deeper than the current node. -/
theorem resolveRootAux_chain (store : MsgStore) (d : Nat) (cur r : String)
    (visited : List String) (hc : Chain store cur r d)
    (hv : ∀ x ∈ visited, ∃ rx dx, Chain store x rx dx ∧ d < dx) :
    resolveRootAux store cur visited = r := by
  induction hc generalizing visited with
  | root id m hm hp =>
    have hnv : id ∉ visited := by
      intro hin
      obtain ⟨rx, dx, hcx, hlt⟩ := hv id hin
      have := chain_unique (Chain.root id m hm hp) hcx
      omega
    exact resolveRootAux_eq_root hnv hm hp
  | step id p r m d hm hp hc ih =>
    have hnv : id ∉ visited := by
      intro hin
      obtain ⟨rx, dx, hcx, hlt⟩ := hv id hin
      have := chain_unique (Chain.step id p r m d hm hp hc) hcx
      omega
    rw [resolveRootAux_eq_step hnv hm hp]
    exact ih (id :: visited) (by
      intro x hx
      rcases List.mem_cons.mp hx with hx | hx
      · exact ⟨r, d + 1, by rw [hx]; exact Chain.step _ p r m d hm hp hc,
          by omega⟩
      · obtain ⟨rx, dx, hcx, hlt⟩ := hv x hx
        exact ⟨rx, dx, hcx, by omega⟩)

/-- A child row of the breadth-first expansion (part_004 lines 369 to 375):
a store entry whose parentMessageId equals the given id and whose sender row
exists (the query inner-joins users). -/
def childrenOf (store : MsgStore) (users : Users) (pid : String) :
    List (String × Msg × User) :=
  store.filterMap (fun e =>
    match e.2.parentMessageId with
    | some q =>
      if q == pid then (getUser users e.2.senderId).map
        (fun u => (e.1, e.2, u))
      else none
    | none => none)

/-- A thread-tree node: the message with its id, its sender, and the nested
replies. -/
inductive ThreadNode where
  | node (id : String) (message : Msg) (sender : User)
      (replies : List ThreadNode)

/-- The level-bounded expansion of getThreadTree (part_004 lines 366 to
389): a node at the last emitted level carries no replies; otherwise its
replies are its children in store order, expanded with one level less.  The
fuel argument is the number of levels still to emit, maxDepth at the
root. -/
def buildNode (store : MsgStore) (users : Users) :
    Nat → String → Msg → User → ThreadNode
  | 0, id, m, u => ThreadNode.node id m u []
  | 1, id, m, u => ThreadNode.node id m u []
  | fuel + 2, id, m, u =>
    ThreadNode.node id m u
      ((childrenOf store users id).map
        (fun c => buildNode store users (fuel + 1) c.1 c.2.1 c.2.2))

/-- storage.getThreadTree (part_004 lines 340 to 392): resolve the true root
by the cycle-guarded upward walk, fetch the root row joined with its sender,
and expand maxDepth levels breadth-first; undefined when the resolved root
row (with sender) does not exist. -/
def getThreadTree (store : MsgStore) (users : Users) (mid : String)
    (maxDepth : Nat) : Option ThreadNode :=
  match getMessage store (resolveRootAux store mid []) with
  | none => none
  | some m =>
    match getUser users m.senderId with
    | none => none
    | some u =>
      some (buildNode store users maxDepth (resolveRootAux store mid []) m u)

/-- Claim C8: for a message id whose parent chain exists and reaches root r,
getThreadTree returns exactly the tree computed from r itself (same root
node, same nested structure) for the same maxDepth; and with every message's
sender row existing, the lookup is not-found exactly when the resolved root
id does not exist in the store. -/
theorem c8_thread_tree_root_invariant (store : MsgStore) (users : Users)
    (mid r : String) (d maxDepth : Nat) (hchain : Chain store mid r d)
    (hsender : ∀ e ∈ store, (getUser users e.2.senderId).isSome = true) :
    getThreadTree store users mid maxDepth
      = getThreadTree store users r maxDepth
    ∧ (∃ m u, getMessage store r = some m
        ∧ getUser users m.senderId = some u
        ∧ getThreadTree store users mid maxDepth
            = some (buildNode store users maxDepth r m u))
    ∧ ∀ mid2, (getThreadTree store users mid2 maxDepth = none
        ↔ getMessage store (resolveRootAux store mid2 []) = none) := by
  have hrootchain : Chain store r r 1 := chain_root hchain
  have h1 : resolveRootAux store mid [] = r :=
    resolveRootAux_chain store d mid r [] hchain (by intro x hx; cases hx)
  have h2 : resolveRootAux store r [] = r :=
    resolveRootAux_chain store 1 r r [] hrootchain (by intro x hx; cases hx)
  obtain ⟨m, hm⟩ := chain_head_exists hrootchain
  have hu := hsender (r, m) (getMessage_mem hm)
  obtain ⟨u, hu⟩ := Option.isSome_iff_exists.mp hu
  refine ⟨?_, ⟨m, u, hm, hu, ?_⟩, ?_⟩
  · rw [getThreadTree, getThreadTree, h1, h2]
  · rw [getThreadTree, h1]
    simp only [hm, hu]
  · intro mid2
    cases hm2 : getMessage store (resolveRootAux store mid2 []) with
    | none => simp [getThreadTree, hm2]
    | some m2 =>
      have hu2 := hsender _ (getMessage_mem hm2)
      obtain ⟨u2, hu2⟩ := Option.isSome_iff_exists.mp hu2
      simp [getThreadTree, hm2, hu2]

/-- The two-message thread of the C8 scenario. -/
def c8RootMsg : Msg :=
  { senderId := "u1", content := "root", channelId := some "general",
    directMessageId := none, parentMessageId := none }

/-- The reply of the C8 scenario. -/
def c8ReplyMsg : Msg :=
  { senderId := "u2", content := "reply", channelId := some "general",
    directMessageId := none, parentMessageId := some "a" }

/-- Store of the C8 scenario: root a with reply b. -/
def c8Store : MsgStore := [("a", c8RootMsg), ("b", c8ReplyMsg)]

/-- Users of the C8 scenario: both senders exist. -/
def c8Users : Users := [("u1", { id := "u1" }), ("u2", { id := "u2" })]

/-- Witness for C8: the tree built from the reply id equals the tree built
from the root id. -/
theorem c8_thread_tree_root_invariant_witness :
    getThreadTree c8Store c8Users "b" 3 = getThreadTree c8Store c8Users "a" 3 := by
  have h1 : Chain c8Store "a" "a" 1 :=
    Chain.root "a" c8RootMsg (by decide) (by decide)
  have h2 : Chain c8Store "b" "a" 2 :=
    Chain.step "b" "a" "a" c8ReplyMsg 1 (by decide) (by decide) h1
  exact (c8_thread_tree_root_invariant c8Store c8Users "b" "a" 2 3 h2
    (by decide)).1

/-- The root-resolution walk with an explicit step budget: `none` models a
walk that would still be running after `fuel` iterations. -/
def resolveRootFuel (store : MsgStore) :
    Nat → String → List String → Option String
  | 0, _, _ => none
  | fuel + 1, cur, visited =>
    if cur ∈ visited then some cur
    else
      match getMessage store cur with
      | none => some cur
      | some m =>
        match parentRef m with
        | none => some cur
        | some p => resolveRootFuel store fuel p (cur :: visited)

/-- The creation-time depth walk with an explicit step budget. -/
def parentDepthFuel (store : MsgStore) :
    Nat → String → List String → Nat → Option Nat
  | 0, _, _, _ => none
  | fuel + 1, cur, visited, depth =>
    if cur ∈ visited then some depth
    else
      match getMessage store cur with
      | none => some depth
      | some m =>
        match parentRef m with
        | none => some (depth + 1)
        | some p =>
          if 3 ≤ depth + 1 then some (depth + 1)
          else parentDepthFuel store fuel p (cur :: visited) (depth + 1)

/-- Any budget exceeding the number of unvisited store keys lets the
root-resolution walk finish, on every store, cyclic ones included. -/
theorem resolveRootFuel_adequate (store : MsgStore) :
    ∀ (fuel : Nat) (cur : String) (visited : List String),
      unvisitedCount store visited < fuel →
      resolveRootFuel store fuel cur visited
        = some (resolveRootAux store cur visited) := by
  intro fuel
  induction fuel with
  | zero => intro cur visited h; omega
  | succ f ih =>
    intro cur visited h
    by_cases hvis : cur ∈ visited
    · rw [resolveRootAux_eq_visited hvis]
      simp [resolveRootFuel, hvis]
    · cases hm : getMessage store cur with
      | none =>
        rw [resolveRootAux_eq_missing hvis hm]
        simp [resolveRootFuel, hvis, hm]
      | some m =>
        cases hp : parentRef m with
        | none =>
          rw [resolveRootAux_eq_root hvis hm hp]
          simp [resolveRootFuel, hvis, hm, hp]
        | some p =>
          have hlt : unvisitedCount store (cur :: visited) < f := by
            have hdec : unvisitedCount store (cur :: visited)
                < unvisitedCount store visited :=
              filter_unvisited_lt _ _ _ (getMessage_mem_keys hm) hvis
            omega
          have hrec := ih p (cur :: visited) hlt
          rw [resolveRootAux_eq_step hvis hm hp]
          simp [resolveRootFuel, hvis, hm, hp, hrec]

/-- Any budget exceeding the number of unvisited store keys lets the
creation-time depth walk finish, on every store, cyclic ones included. -/
theorem parentDepthFuel_adequate (store : MsgStore) :
    ∀ (fuel : Nat) (cur : String) (visited : List String) (depth : Nat),
      unvisitedCount store visited < fuel →
      parentDepthFuel store fuel cur visited depth
        = some (parentDepthAux store cur visited depth) := by
  intro fuel
  induction fuel with
  | zero => intro cur visited depth h; omega
  | succ f ih =>
    intro cur visited depth h
    by_cases hvis : cur ∈ visited
    · rw [show parentDepthAux store cur visited depth = depth by
        rw [parentDepthAux]; simp [hvis]]
      simp [parentDepthFuel, hvis]
    · cases hm : getMessage store cur with
      | none =>
        rw [show parentDepthAux store cur visited depth = depth by
          rw [parentDepthAux]; simp [hvis, hm]]
        simp [parentDepthFuel, hvis, hm]
      | some m =>
        cases hp : parentRef m with
        | none =>
          rw [show parentDepthAux store cur visited depth = depth + 1 by
            rw [parentDepthAux]; simp [hvis, hm, hp]]
          simp [parentDepthFuel, hvis, hm, hp]
        | some p =>
          by_cases h3 : 3 ≤ depth + 1
          · rw [show parentDepthAux store cur visited depth = depth + 1 by
              rw [parentDepthAux]; simp [hvis, hm, hp, h3]]
            simp [parentDepthFuel, hvis, hm, hp, h3]
          · have hlt : unvisitedCount store (cur :: visited) < f := by
              have hdec : unvisitedCount store (cur :: visited)
                  < unvisitedCount store visited :=
                filter_unvisited_lt _ _ _ (getMessage_mem_keys hm) hvis
              omega
            have hrec := ih p (cur :: visited) (depth + 1) hlt
            rw [show parentDepthAux store cur visited depth
                = parentDepthAux store p (cur :: visited) (depth + 1) by
              rw [parentDepthAux]; simp [hvis, hm, hp, h3]]
            simp [parentDepthFuel, hvis, hm, hp, h3, hrec]

/-- Claim C9: both parent-chain walks terminate on every finite store, even
one whose parent pointers form a cycle: a budget of one more than the store
size (each id is visited at most once) always suffices, and the budgeted
walks agree with the unbudgeted ones. -/
theorem c9_walks_terminate (store : MsgStore) (cur : String) (depth : Nat)
    (fuel : Nat) (h : store.length < fuel) :
    resolveRootFuel store fuel cur [] = some (resolveRootAux store cur [])
    ∧ parentDepthFuel store fuel cur [] depth
        = some (parentDepthAux store cur [] depth) := by
  have hcount : unvisitedCount store [] < fuel := by
    have hle : unvisitedCount store [] ≤ store.length := by
      simp only [unvisitedCount]
      calc ((store.map Prod.fst).filter (fun k => decide (k ∉ ([] : List String)))).length
          ≤ (store.map Prod.fst).length := List.length_filter_le _ _
        _ = store.length := List.length_map _ _
    omega
  exact ⟨resolveRootFuel_adequate store fuel cur [] hcount,
         parentDepthFuel_adequate store fuel cur [] depth hcount⟩

/-- A two-message parent cycle: a points to b and b points to a. -/
def c9Store : MsgStore :=
  [("a", { senderId := "u", content := "x", channelId := some "c",
           directMessageId := none, parentMessageId := some "b" }),
   ("b", { senderId := "u", content := "y", channelId := some "c",
           directMessageId := none, parentMessageId := some "a" })]

/-- Witness for C9: on the cyclic two-message store, both walks finish
within a budget of three steps. -/
theorem c9_walks_terminate_witness :
    resolveRootFuel c9Store 3 "a" [] = some (resolveRootAux c9Store "a" [])
    ∧ parentDepthFuel c9Store 3 "a" [] 0
        = some (parentDepthAux c9Store "a" [] 0) :=
  c9_walks_terminate c9Store "a" 0 3 (by decide)

/-- Witness for C10: two users registered over the same socket 5; the close
removes only the first entry, and the survivor still references the closed
socket 5. -/
theorem c10_socket_close_witness :
    handleSocketClose
      [("u1", { ws := 5, userId := "u1", channels := [] }),
       ("u2", { ws := 5, userId := "u2", channels := [] })] 5
      = [("u2", { ws := 5, userId := "u2", channels := [] })] :=
  (c10_socket_close 5).1 []
    [("u2", { ws := 5, userId := "u2", channels := [] })]
    ("u1", { ws := 5, userId := "u1", channels := [] })
    (by simp) rfl

end ChatCore
